import Mathlib

/-!
# Verification of `SecadoraInteligente/Ui.py`

Shallow embedding of the filament-dryer monitor GUI
(`src/SecadoraInteligente/Ui.py`): the fixed parsing regex applied with
Python's `re.search`, the `MainWindow.process_data` display update, the
connect/disconnect lifecycle of `MainWindow.toggle_connection`,
`MainWindow.handle_error`, and the `SerialWorker.run`/`SerialWorker.stop`
control flow.

## The regex

The source compiles (line 57)

  `T:\s*([\d.]+)\s*C\s*\|\s*H:\s*([\d.]+)\s*%\s*\|\s*Peso:\s*([-\d.]+)\s*\|\s*Aquecedor:\s*(ON|OFF)`

and applies it with `.search(line)` (line 179), i.e. the pattern is tried at
every start position from the left, and the leftmost successful match wins.

We embed the matcher deterministically by maximal munch.  This is faithful to
Python's backtracking semantics for this particular pattern because every
quantified subpattern is immediately followed by a character it can never
consume, so giving back characters can never turn a failure into a success nor
change a capture:

* each `\s*` is followed either by a character class (`[\d.]`, `[-\d.]`, the
  `O` of `ON|OFF`) disjoint from whitespace, or by a literal (`C`, `|`, `%`,
  `H`, `P`, `A`) that is not whitespace — a shorter `\s*` leaves a whitespace
  character in front, which the follower rejects;
* `[\d.]+` is followed by `\s*` then a literal (`C` or `%`): whitespace and
  the literals are outside the class, so the capture is the maximal run of
  the class, and a shorter capture leaves a class character that neither
  `\s*` nor the literal accepts; the same holds for `[-\d.]+` followed by
  `\s*\|`;
* the alternation `ON|OFF` is decided by the next characters alone (`O`
  followed by `N` versus `O` followed by `F F`), and the pattern ends there.

`\s` and `\d` are modelled over the ASCII range (`[ \t\n\r\x0b\x0c]` and
`[0-9]`); the device wire format is ASCII.
-/

/-- Characters matched by the regex class `\s` (ASCII range). -/
def isWS (c : Char) : Bool :=
  c = ' ' || c = '\t' || c = '\n' || c = '\r' || c = '\x0b' || c = '\x0c'

/-- Characters matched by the class `[\d.]` (temperature and humidity tokens). -/
def isDigitDot (c : Char) : Bool :=
  c.isDigit || c = '.'

/-- Characters matched by the class `[-\d.]` (weight token). -/
def isDigitDotDash (c : Char) : Bool :=
  c = '-' || c.isDigit || c = '.'

/-- Consume an exact literal character sequence, returning the remainder. -/
def eatLit : List Char → List Char → Option (List Char)
  | [], cs => some cs
  | _ :: _, [] => none
  | l :: ls, c :: cs => if c = l then eatLit ls cs else none

/-- Consume `\s*`: drop the maximal whitespace run. -/
def eatWS (cs : List Char) : List Char :=
  cs.dropWhile isWS

/-- Consume `class+` greedily: the maximal nonempty run of class characters,
returned together with the remainder; fails on an empty run. -/
def eatClass1 (p : Char → Bool) (cs : List Char) : Option (List Char × List Char) :=
  match cs.takeWhile p with
  | [] => none
  | t => some (t, cs.dropWhile p)

/-- Consume the ordered alternation `(ON|OFF)`. -/
def eatHeater (cs : List Char) : Option (String × List Char) :=
  match cs with
  | 'O' :: 'N' :: rest => some ("ON", rest)
  | 'O' :: 'F' :: 'F' :: rest => some ("OFF", rest)
  | _ => none

/-- The four captured groups of a successful match
(`match.group(1)` … `match.group(4)` in `process_data`). -/
structure Groups where
  temp : String
  hum : String
  weight : String
  heater : String
deriving DecidableEq, Repr

/-- Continuation of the pattern from just after the literal `Peso:`,
with groups 1 and 2 already captured:
`\s*([-\d.]+)\s*\|\s*Aquecedor:\s*(ON|OFF)`. -/
def afterPeso (g1 g2 : List Char) (cs : List Char) : Option Groups :=
  match eatClass1 isDigitDotDash (eatWS cs) with
  | none => none
  | some (g3, cs) =>
    match eatLit ['|'] (eatWS cs) with
    | none => none
    | some cs =>
      match eatLit ['A', 'q', 'u', 'e', 'c', 'e', 'd', 'o', 'r', ':'] (eatWS cs) with
      | none => none
      | some cs =>
        match eatHeater (eatWS cs) with
        | none => none
        | some (g4, _) => some ⟨String.mk g1, String.mk g2, String.mk g3, g4⟩

/-- Continuation of the pattern from just after the literal `H:`,
with group 1 already captured:
`\s*([\d.]+)\s*%\s*\|\s*Peso:` then `afterPeso`. -/
def afterH (g1 : List Char) (cs : List Char) : Option Groups :=
  match eatClass1 isDigitDot (eatWS cs) with
  | none => none
  | some (g2, cs) =>
    match eatLit ['%'] (eatWS cs) with
    | none => none
    | some cs =>
      match eatLit ['|'] (eatWS cs) with
      | none => none
      | some cs =>
        match eatLit ['P', 'e', 's', 'o', ':'] (eatWS cs) with
        | none => none
        | some cs => afterPeso g1 g2 cs

/-- Continuation of the pattern from just after the literal `T:`:
`\s*([\d.]+)\s*C\s*\|\s*H:` then `afterH`. -/
def afterT (cs : List Char) : Option Groups :=
  match eatClass1 isDigitDot (eatWS cs) with
  | none => none
  | some (g1, cs) =>
    match eatLit ['C'] (eatWS cs) with
    | none => none
    | some cs =>
      match eatLit ['|'] (eatWS cs) with
      | none => none
      | some cs =>
        match eatLit ['H', ':'] (eatWS cs) with
        | none => none
        | some cs => afterH g1 cs

/-- Attempt the whole pattern at the start of `cs`
(the literal `T:` then `afterT`). -/
def matchFrom (cs : List Char) : Option Groups :=
  match eatLit ['T', ':'] cs with
  | none => none
  | some cs => afterT cs

/-- `self.regex_pattern.search(line)`: try the pattern at each start position
from the left; the leftmost match wins. -/
def regexSearch (cs : List Char) : Option Groups :=
  match matchFrom cs with
  | some g => some g
  | none =>
    match cs with
    | [] => none
    | _ :: rest => regexSearch rest

/-! ## The UI state (`MainWindow`)

One record per mutable widget attribute that the claims mention: the four
value-card labels and the heater card's style sheet, the log contents, and
the connection controls (`btn_connect` checked state / text / style,
`combo_ports` and `btn_refresh` enabled state, the selected port text) plus
the worker handle (`self.worker`) and its `is_running` flag. -/

/-- The style sheet `create_card`/`process_data` install on a card frame:
`QFrame { background-color: <color>; border-radius: 10px; }`. -/
def frameStyle (color : String) : String :=
  "QFrame \x7b background-color: " ++ color ++ "; border-radius: 10px; \x7d"

structure UI where
  tempLabel : String
  humLabel : String
  weightLabel : String
  heaterLabel : String
  heaterStyle : String
  log : List String
  btnChecked : Bool
  btnText : String
  btnStyle : String
  comboEnabled : Bool
  refreshEnabled : Bool
  portText : String
  workerExists : Bool
  workerRunning : Bool
deriving DecidableEq, Repr

/-- The state built by `setup_ui`: placeholder card values
(`--- °C`, `--- %`, `--- g`, `OFF` on a grey card), empty log, unchecked
`Conectar` button, enabled port controls, no worker. -/
def initState : UI :=
  { tempLabel := "--- °C"
    humLabel := "--- %"
    weightLabel := "--- g"
    heaterLabel := "OFF"
    heaterStyle := frameStyle "#9E9E9E"
    log := []
    btnChecked := false
    btnText := "Conectar"
    btnStyle := ""
    comboEnabled := true
    refreshEnabled := true
    portText := ""
    workerExists := false
    workerRunning := false }

/-- `MainWindow.log_message`: append the message to the log view
(the auto-scroll of the view is not part of the state). -/
def logMessage (msg : String) (st : UI) : UI :=
  { st with log := st.log ++ [msg] }

/-- `MainWindow.process_data` (lines 172–197): log the raw line, search the
regex, and on success overwrite the four card labels (with the unit suffixes
of the f-strings on lines 188–190) and restyle the heater card by token. -/
def processData (line : String) (st : UI) : UI :=
  let st1 := logMessage line st
  match regexSearch line.data with
  | none => st1
  | some g =>
    let st2 := { st1 with
      tempLabel := g.temp ++ " °C"
      humLabel := g.hum ++ " %"
      weightLabel := g.weight ++ " g"
      heaterLabel := g.heater }
    if g.heater = "ON" then
      { st2 with heaterStyle := frameStyle "#F44336" }
    else
      { st2 with heaterStyle := frameStyle "#9E9E9E" }

/-- The dashboard display portion of the state: what claims C1–C4 call the
four display fields plus the heater indicator color. -/
def displayOf (st : UI) : String × String × String × String × String :=
  (st.tempLabel, st.humLabel, st.weightLabel, st.heaterLabel, st.heaterStyle)

/-- Fold a sequence of line events through `process_data`. -/
def foldProcess (st : UI) (lines : List String) : UI :=
  lines.foldl (fun s l => processData l s) st

/-- The most recent line of the sequence on which the regex matched. -/
def lastMatched (lines : List String) : Option String :=
  (lines.filter fun l => (regexSearch l.data).isSome).getLast?

/-! ## Connection lifecycle (`toggle_connection`, `handle_error`, `stop`)

`toggle_connection` is embedded as the ordered list of primitive actions the
method body performs (so that the order of the stop/join versus the control
re-enabling is part of the model), together with a state interpretation
`applyAction`; the resulting state transition is the left fold of the trace. -/

inductive UiAction where
  | setRunning (b : Bool)
  | join
  | clearWorker
  | createWorker (port : String)
  | startWorker
  | setBtnText (s : String)
  | setBtnStyle (s : String)
  | setComboEnabled (b : Bool)
  | setRefreshEnabled (b : Bool)
  | setChecked (b : Bool)
  | logEntry (s : String)
deriving DecidableEq, Repr

/-- Effect of one primitive action on the UI state.  `join` blocks until the
worker thread returns and has no state effect of its own; `createWorker`
mirrors `SerialWorker.__init__`, which sets `is_running = True`. -/
def applyAction (st : UI) : UiAction → UI
  | .setRunning b => { st with workerRunning := b }
  | .join => st
  | .clearWorker => { st with workerExists := false }
  | .createWorker _ => { st with workerExists := true, workerRunning := true }
  | .startWorker => st
  | .setBtnText s => { st with btnText := s }
  | .setBtnStyle s => { st with btnStyle := s }
  | .setComboEnabled b => { st with comboEnabled := b }
  | .setRefreshEnabled b => { st with refreshEnabled := b }
  | .setChecked b => { st with btnChecked := b }
  | .logEntry s => { st with log := st.log ++ [s] }

/-- `SerialWorker.stop` (lines 41–43): clear `is_running`, then `wait()`
(join the thread). -/
def stopTrace : List UiAction :=
  [.setRunning false, .join]

/-- The connect branch of `toggle_connection` (lines 143–159): with no port
selected, log a prompt and uncheck the button; otherwise create and start the
worker, switch the button to `Desconectar`, disable the port controls and log
the connection attempt. -/
def connectTrace (port : String) : List UiAction :=
  if port = "" then
    [.logEntry "Selecione uma porta serial!", .setChecked false]
  else
    [.createWorker port, .startWorker,
     .setBtnText "Desconectar",
     .setBtnStyle "background-color: #ffcccc; color: red;",
     .setComboEnabled false, .setRefreshEnabled false,
     .logEntry ("Conectando a " ++ port ++ "...")]

/-- The disconnect branch of `toggle_connection` (lines 161–170): if a worker
exists, `stop()` it and drop the reference; then restore the button, re-enable
the port controls and log. -/
def disconnectTrace (hasWorker : Bool) : List UiAction :=
  (if hasWorker then stopTrace ++ [.clearWorker] else []) ++
  [.setBtnText "Conectar", .setBtnStyle "",
   .setComboEnabled true, .setRefreshEnabled true,
   .logEntry "Desconectado."]

/-- `MainWindow.toggle_connection`: branch on the (already toggled) checked
state of `btn_connect` and run the corresponding action sequence. -/
def toggleConnection (st : UI) : UI :=
  if st.btnChecked then
    (connectTrace st.portText).foldl applyAction st
  else
    (disconnectTrace st.workerExists).foldl applyAction st

/-- A click on the checkable `btn_connect` (user click, or the programmatic
`self.btn_connect.click()`): Qt first flips the checked state, then delivers
the `clicked` signal to `toggle_connection`. -/
def clickConnect (st : UI) : UI :=
  toggleConnection { st with btnChecked := !st.btnChecked }

/-- `MainWindow.handle_error` (lines 199–203): log `ERRO: <msg>`, then force
the disconnect by programmatically clicking the connect button. -/
def handleError (msg : String) (st : UI) : UI :=
  clickConnect (logMessage ("ERRO: " ++ msg) st)

/-- The state a manual disconnect click produces, written out explicitly
(used to compare the error path with the manual path in claim C8). -/
def disconnectedStateOf (st : UI) : UI :=
  { st with
    btnChecked := false
    btnText := "Conectar"
    btnStyle := ""
    comboEnabled := true
    refreshEnabled := true
    workerExists := false
    workerRunning := !st.workerExists && st.workerRunning
    log := st.log ++ ["Desconectado."] }

/-- Actions that bring a reader into existence or start it. -/
def isWorkerStart : UiAction → Bool
  | .createWorker _ => true
  | .startWorker => true
  | _ => false

/-! ## The serial worker (`SerialWorker.run`)

`run` is embedded as a function of its environment: the outcome of the
`serial.Serial(...)` constructor, and the sequence of loop-iteration events
observed until the external stop request (`is_running = False`) ends the
loop.  An iteration either sees no waiting data, reads a (decoded) line, or
raises an exception; an exception aborts the loop, the remaining events never
happen.  The output is the emitted signal sequence plus whether the port was
opened and whether it was closed by the `finally` block. -/

inductive IterEvent where
  | noData
  | data (raw : String)
  | exn (msg : String)
deriving DecidableEq, Repr

inductive Sig where
  | line (s : String)
  | error (s : String)
deriving DecidableEq, Repr

def isExn : IterEvent → Bool
  | .exn _ => true
  | _ => false

def isErrSig : Sig → Bool
  | .error _ => true
  | _ => false

/-- The `while self.is_running` loop body: on waiting data, decode, strip and
emit the line if non-empty; an exception ends the loop with its message. -/
def loopIters : List IterEvent → List Sig × Option String
  | [] => ([], none)
  | .noData :: rest => loopIters rest
  | .data raw :: rest =>
    let out := loopIters rest
    ((if raw.trim = "" then [] else [Sig.line raw.trim]) ++ out.1, out.2)
  | .exn m :: _ => ([], some m)

/-- One full execution of `SerialWorker.run` (lines 24–39): `openRes` is the
constructor outcome (`some e` = exception `e`); `opened`/`closed` record
whether `self.serial_port` was assigned an open port and whether the
`finally` block closed it. -/
def runWorker (openRes : Option String) (its : List IterEvent) :
    List Sig × Bool × Bool :=
  match openRes with
  | some e => ([Sig.error e], false, false)
  | none =>
    match (loopIters its).2 with
    | some m => ((loopIters its).1 ++ [Sig.error m], true, true)
    | none => ((loopIters its).1, true, true)

def countErrors (sigs : List Sig) : Nat :=
  (sigs.filter isErrSig).length

/-! ## Helper lemmas -/

/-- The display update of lines 181–197 of `process_data`, as a function of the
captured groups: overwrite the four labels (with the f-string unit suffixes)
and restyle the heater card by its token. -/
def applyMatch (g : Groups) (st : UI) : UI :=
  let st2 := { st with
    tempLabel := g.temp ++ " °C"
    humLabel := g.hum ++ " %"
    weightLabel := g.weight ++ " g"
    heaterLabel := g.heater }
  if g.heater = "ON" then
    { st2 with heaterStyle := frameStyle "#F44336" }
  else
    { st2 with heaterStyle := frameStyle "#9E9E9E" }

/-- The heater-card color as a function of the heater token alone. -/
def heaterColorOf (t : String) : String :=
  if t = "ON" then frameStyle "#F44336" else frameStyle "#9E9E9E"

theorem processData_of_none {line : String} {st : UI}
    (h : regexSearch line.data = none) :
    processData line st = logMessage line st := by
  simp [processData, h]

theorem processData_of_some {line : String} {st : UI} {g : Groups}
    (h : regexSearch line.data = some g) :
    processData line st = applyMatch g (logMessage line st) := by
  simp [processData, applyMatch, h]

theorem displayOf_logMessage (msg : String) (st : UI) :
    displayOf (logMessage msg st) = displayOf st := rfl

theorem displayOf_applyMatch (g : Groups) (st st' : UI) :
    displayOf (applyMatch g st) = displayOf (applyMatch g st') := by
  by_cases h : g.heater = "ON" <;> simp [applyMatch, displayOf, h]

theorem foldProcess_concat (st : UI) (ls : List String) (l : String) :
    foldProcess st (ls ++ [l]) = processData l (foldProcess st ls) := by
  simp [foldProcess]

theorem lastMatched_concat_some (ls : List String) (l : String)
    (h : (regexSearch l.data).isSome) :
    lastMatched (ls ++ [l]) = some l := by
  simp [lastMatched, List.filter_append, h]

theorem lastMatched_concat_none (ls : List String) (l : String)
    (h : regexSearch l.data = none) :
    lastMatched (ls ++ [l]) = lastMatched ls := by
  simp [lastMatched, List.filter_append, h]

/-- After any event sequence, the display equals the display produced by the
most recent line the regex matched, or the starting display if it matched on
none of them. -/
theorem displayOf_foldProcess (lines : List String) (st : UI) :
    displayOf (foldProcess st lines) =
      (match lastMatched lines with
       | some l => displayOf (processData l initState)
       | none => displayOf st) := by
  induction lines using List.reverseRecOn with
  | nil => simp [foldProcess, lastMatched]
  | append_singleton ls l ih =>
    rw [foldProcess_concat]
    cases h : regexSearch l.data with
    | none =>
      rw [processData_of_none h, displayOf_logMessage,
        lastMatched_concat_none ls l h, ih]
    | some g =>
      rw [lastMatched_concat_some ls l (by simp [h])]
      show displayOf (processData l (foldProcess st ls)) = displayOf (processData l initState)
      rw [processData_of_some h, processData_of_some h]
      exact displayOf_applyMatch g (logMessage l (foldProcess st ls)) (logMessage l initState)

theorem countErrors_loopIters (its : List IterEvent) :
    countErrors (loopIters its).1 = 0 := by
  induction its with
  | nil => rfl
  | cons e rest ih =>
    cases e with
    | noData => simpa [loopIters] using ih
    | data raw =>
      by_cases hr : raw.trim = "" <;>
        simpa [loopIters, countErrors, List.filter_append, isErrSig, hr] using ih
    | exn m => simp [loopIters, countErrors]

theorem loopIters_exn_flag (its : List IterEvent) :
    (loopIters its).2.isSome = its.any isExn := by
  induction its with
  | nil => rfl
  | cons e rest ih =>
    cases e with
    | noData => simpa [loopIters, isExn] using ih
    | data raw => simpa [loopIters, isExn] using ih
    | exn m => simp [loopIters, isExn]

/-! ## Example lines -/

/-- The spec's example well-formed line. -/
def exLine : String := "T: 85.0 C | H: 20.0 % | Peso: 150 | Aquecedor: ON"

/-- The example line embedded as a proper substring, with extra leading and
trailing text. -/
def wrappedLine : String :=
  "LOG reading: T: 85.0 C | H: 20.0 % | Peso: 150 | Aquecedor: ON -- end"

/-- A line with tokens that are not valid decimal numbers, yet inside the
character classes of the pattern. -/
def badTokenLine : String := "T: 1.2.3 C | H: ... % | Peso: 1-2 | Aquecedor: ON"

/-! ## Claims -/

/-- C1: a line on which the regex finds no match changes none of the four
display fields nor the heater style; only the log gains that line.  And after
any sequence of line events starting from the initial placeholder state, the
display equals the one produced by the most recent matched line, or the
initial placeholder display if no line matched. -/
theorem unmatched_lines_never_touch_display (lines : List String) (st : UI) :
    (∀ line, regexSearch line.data = none →
      processData line st = { st with log := st.log ++ [line] }) ∧
    displayOf (foldProcess initState lines) =
      (match lastMatched lines with
       | some l => displayOf (processData l initState)
       | none => displayOf initState) := by
  constructor
  · intro line h
    exact processData_of_none h
  · exact displayOf_foldProcess lines initState

theorem unmatched_lines_never_touch_display_witness :
    processData "garbage line" initState =
      { initState with log := initState.log ++ ["garbage line"] } :=
  (unmatched_lines_never_touch_display [] initState).1 "garbage line" (by decide)

/-- C2 counterexample: on the spec's own example line the temperature card is
set to `85.0 °C`, not to the bare captured group `85.0` — the labels are not
"exactly the strings captured by groups 1–4". -/
theorem displayed_values_carry_unit_suffixes_cx :
    regexSearch exLine.data = some ⟨"85.0", "20.0", "150", "ON"⟩ ∧
    (processData exLine initState).tempLabel = "85.0 °C" ∧
    ¬(processData exLine initState).tempLabel = "85.0" ∧
    (processData exLine initState).weightLabel = "150 g" ∧
    ¬(processData exLine initState).weightLabel = "150" := by
  decide

/-- C2 (amended): for every matched line the four labels are the captured
groups with the fixed unit suffixes of the source's f-strings appended —
`<g1> °C`, `<g2> %`, `<g3> g` — and the heater label is exactly group 4; the
captured strings themselves are displayed without any conversion. -/
theorem displayed_values_carry_unit_suffixes (line : String) (st : UI) (g : Groups)
    (h : regexSearch line.data = some g) :
    (processData line st).tempLabel = g.temp ++ " °C" ∧
    (processData line st).humLabel = g.hum ++ " %" ∧
    (processData line st).weightLabel = g.weight ++ " g" ∧
    (processData line st).heaterLabel = g.heater := by
  rw [processData_of_some h]
  by_cases hon : g.heater = "ON" <;> simp [applyMatch, hon]

theorem displayed_values_carry_unit_suffixes_witness :
    (processData exLine initState).tempLabel = "85.0" ++ " °C" ∧
    (processData exLine initState).humLabel = "20.0" ++ " %" ∧
    (processData exLine initState).weightLabel = "150" ++ " g" ∧
    (processData exLine initState).heaterLabel = "ON" :=
  displayed_values_carry_unit_suffixes exLine initState
    ⟨"85.0", "20.0", "150", "ON"⟩ (by decide)

/-- C3 counterexample: a line containing the wire-format shape only as a
proper substring (extra leading and trailing text) is matched by `re.search`
and does update the dashboard, contradicting the claim that only a line of
exactly that shape updates it. -/
theorem substring_match_updates_display_cx :
    regexSearch wrappedLine.data = some ⟨"85.0", "20.0", "150", "ON"⟩ ∧
    (processData wrappedLine initState).tempLabel = "85.0 °C" ∧
    ¬(processData wrappedLine initState).tempLabel = initState.tempLabel := by
  decide

/-- C3 (amended): the dashboard is updated exactly when the regex finds a
match anywhere in the line (`re.search`), extra leading or trailing text
notwithstanding; a line in which no substring matches is logged but leaves
all display fields unchanged. -/
theorem update_iff_search_finds_match (line : String) (st : UI) :
    (regexSearch line.data = none → processData line st = logMessage line st) ∧
    (∀ g, regexSearch line.data = some g →
      processData line st = applyMatch g (logMessage line st)) := by
  constructor
  · intro h
    exact processData_of_none h
  · intro g h
    exact processData_of_some h

theorem update_iff_search_finds_match_witness :
    processData wrappedLine initState =
      applyMatch ⟨"85.0", "20.0", "150", "ON"⟩ (logMessage wrappedLine initState) :=
  (update_iff_search_finds_match wrappedLine initState).2
    ⟨"85.0", "20.0", "150", "ON"⟩ (by decide)

/-- C4: the heater card style is a pure function of the captured heater token
alone: `ON` maps to the warning color `#F44336`, and any other token value
maps to the neutral color `#9E9E9E`; no other part of the line or of the
previous state influences it. -/
theorem heater_color_pure_in_token (line : String) (st : UI) (g : Groups)
    (h : regexSearch line.data = some g) :
    (processData line st).heaterStyle = heaterColorOf g.heater ∧
    heaterColorOf "ON" = frameStyle "#F44336" ∧
    (∀ x, ¬x = "ON" → heaterColorOf x = frameStyle "#9E9E9E") := by
  refine ⟨?_, rfl, ?_⟩
  · rw [processData_of_some h]
    by_cases hon : g.heater = "ON" <;> simp [applyMatch, heaterColorOf, hon]
  · intro x hx
    simp [heaterColorOf, hx]

theorem heater_color_pure_in_token_witness :
    (processData exLine initState).heaterStyle = heaterColorOf "ON" :=
  (heater_color_pure_in_token exLine initState
    ⟨"85.0", "20.0", "150", "ON"⟩ (by decide)).1

/-- C5: a run of `SerialWorker.run` emits exactly one error signal when it
fails (an exception while opening, or an exception reached in the read loop)
and none otherwise, and the `finally` block closes the serial connection on
every exit path on which it was opened. -/
theorem worker_one_error_and_closes (openRes : Option String) (its : List IterEvent) :
    countErrors (runWorker openRes its).1 =
      (if openRes.isSome || its.any isExn then 1 else 0) ∧
    (runWorker openRes its).2.2 = (runWorker openRes its).2.1 := by
  cases openRes with
  | some e => simp [runWorker, countErrors, isErrSig]
  | none =>
    cases hm : (loopIters its).2 with
    | none =>
      have hflag : its.any isExn = false := by
        rw [← loopIters_exn_flag, hm]
        rfl
      simp [runWorker, hm, hflag, countErrors_loopIters]
    | some m =>
      have hflag : its.any isExn = true := by
        rw [← loopIters_exn_flag, hm]
        rfl
      simp [runWorker, hm, hflag, countErrors, List.filter_append, isErrSig]
      have h0 := countErrors_loopIters its
      simpa [countErrors] using h0

/-- C6: completing the disconnect path (a click while the button is checked)
leaves the port selector and the refresh button re-enabled, the worker
reference dropped and its running flag cleared; and in the performed action
sequence the `stop()` part (clear flag, then join) comes first, the join
strictly preceding both re-enable actions. -/
theorem disconnect_reenables_after_join (st : UI) (h : st.btnChecked = true) :
    (clickConnect st).comboEnabled = true ∧
    (clickConnect st).refreshEnabled = true ∧
    (clickConnect st).workerExists = false ∧
    (clickConnect st).workerRunning = (!st.workerExists && st.workerRunning) ∧
    (disconnectTrace true).take 2 = stopTrace ∧
    (disconnectTrace true).indexOf .join <
      (disconnectTrace true).indexOf (.setComboEnabled true) ∧
    (disconnectTrace true).indexOf .join <
      (disconnectTrace true).indexOf (.setRefreshEnabled true) := by
  obtain ⟨tl, hl, wl, htl, hs, lg, bc, bt, bs, ce, re, pt, we, wr⟩ := st
  simp only at h
  subst h
  cases we <;>
    simp [clickConnect, toggleConnection, disconnectTrace, stopTrace, applyAction]

theorem disconnect_reenables_after_join_witness :
    (clickConnect { initState with
        btnChecked := true, workerExists := true, workerRunning := true,
        comboEnabled := false, refreshEnabled := false }).comboEnabled = true :=
  (disconnect_reenables_after_join { initState with
      btnChecked := true, workerExists := true, workerRunning := true,
      comboEnabled := false, refreshEnabled := false } (by decide)).1

/-- C7: a click that checks the button while no port is selected performs no
worker-creating or worker-starting action, logs the prompt
`Selecione uma porta serial!`, puts the toggle back to unchecked, and changes
nothing else in the state. -/
theorem connect_without_port_starts_nothing (st : UI)
    (h1 : st.btnChecked = false) (h2 : st.portText = "") :
    clickConnect st = { st with log := st.log ++ ["Selecione uma porta serial!"] } ∧
    (connectTrace "").all (fun a => !isWorkerStart a) = true := by
  constructor
  · obtain ⟨tl, hl, wl, htl, hs, lg, bc, bt, bs, ce, re, pt, we, wr⟩ := st
    simp only at h1 h2
    subst h1
    subst h2
    simp [clickConnect, toggleConnection, connectTrace, applyAction]
  · decide

theorem connect_without_port_starts_nothing_witness :
    clickConnect initState =
      { initState with log := initState.log ++ ["Selecione uma porta serial!"] } :=
  (connect_without_port_starts_nothing initState rfl rfl).1

/-- C8: while connected, handling a worker error is exactly a manual
disconnect preceded by one log entry `ERRO: <msg>`: both paths end in the
same explicitly written-out disconnected state (button `Conectar` with default
style and unchecked, both port controls re-enabled, worker dropped and
stopped, log closed by `Desconectado.`). -/
theorem error_event_is_logged_disconnect (msg : String) (st : UI)
    (h : st.btnChecked = true) :
    handleError msg st = disconnectedStateOf (logMessage ("ERRO: " ++ msg) st) ∧
    clickConnect st = disconnectedStateOf st := by
  obtain ⟨tl, hl, wl, htl, hs, lg, bc, bt, bs, ce, re, pt, we, wr⟩ := st
  simp only at h
  subst h
  cases we <;>
    simp [handleError, clickConnect, toggleConnection, disconnectTrace, stopTrace,
      applyAction, logMessage, disconnectedStateOf]

theorem error_event_is_logged_disconnect_witness :
    handleError "device unplugged" { initState with
        btnChecked := true, workerExists := true, workerRunning := true } =
      disconnectedStateOf (logMessage ("ERRO: " ++ "device unplugged")
        { initState with
            btnChecked := true, workerExists := true, workerRunning := true }) :=
  (error_event_is_logged_disconnect "device unplugged" { initState with
      btnChecked := true, workerExists := true, workerRunning := true } (by decide)).1

/-- C10: the captured numeric tokens are not validated as decimal numbers:
the line `T: 1.2.3 C | H: ... % | Peso: 1-2 | Aquecedor: ON` matches, its
malformed tokens `1.2.3`, `...` and `1-2` are captured, and they are displayed
verbatim (with the unit suffixes) on the corresponding cards. -/
theorem malformed_tokens_displayed_verbatim :
    regexSearch badTokenLine.data = some ⟨"1.2.3", "...", "1-2", "ON"⟩ ∧
    (processData badTokenLine initState).tempLabel = "1.2.3 °C" ∧
    (processData badTokenLine initState).humLabel = "... %" ∧
    (processData badTokenLine initState).weightLabel = "1-2 g" := by
  decide

/-! ## The sign asymmetry of the pattern (claim C9)

`mkLine` builds a line of the wire-format shape of the spec
(`T: <tok> C | H: <tok> % | Peso: <tok> | Aquecedor: <tok>`) from the four
token strings. -/

def mkLine (t h w s : String) : String :=
  "T: " ++ t ++ " C | H: " ++ h ++ " % | Peso: " ++ w ++ " | Aquecedor: " ++ s

theorem mkLine_data (t h w s : String) :
    (mkLine t h w s).data =
      'T' :: ':' :: ' ' ::
        (t.data ++ (' ' :: 'C' :: ' ' :: '|' :: ' ' :: 'H' :: ':' ::
          (' ' :: (h.data ++ (' ' :: '%' :: ' ' :: '|' :: ' ' ::
            'P' :: 'e' :: 's' :: 'o' :: ':' ::
              (' ' :: (w.data ++ (' ' :: '|' :: ' ' ::
                'A' :: 'q' :: 'u' :: 'e' :: 'c' :: 'e' :: 'd' :: 'o' :: 'r' :: ':' ::
                  (' ' :: s.data))))))))) := by
  have d1 : "T: ".data = ['T', ':', ' '] := rfl
  have d2 : " C | H: ".data = [' ', 'C', ' ', '|', ' ', 'H', ':', ' '] := rfl
  have d3 : " % | Peso: ".data = [' ', '%', ' ', '|', ' ', 'P', 'e', 's', 'o', ':', ' '] := rfl
  have d4 : " | Aquecedor: ".data = [' ', '|', ' ', 'A', 'q', 'u', 'e', 'c', 'e', 'd', 'o', 'r', ':', ' '] := rfl
  simp [mkLine, String.data_append, d1, d2, d3, d4]

theorem not_ws_of_dashClass {c : Char} (h : isDigitDotDash c = true) : isWS c = false := by
  by_contra hw
  rw [Bool.not_eq_false] at hw
  have hc : c = ' ' ∨ c = '\t' ∨ c = '\n' ∨ c = '\r' ∨ c = '\x0b' ∨ c = '\x0c' := by
    have := hw
    simp only [isWS, Bool.or_eq_true, decide_eq_true_eq] at this
    tauto
  rcases hc with rfl | rfl | rfl | rfl | rfl | rfl <;> exact absurd h (by decide)

theorem digitDot_of_dashClass {c : Char} (h : isDigitDotDash c = true)
    (hne : ¬c = '-') : isDigitDot c = true := by
  have hc : c = '-' ∨ c.isDigit = true ∨ c = '.' := by
    simpa [isDigitDotDash, or_assoc] using h
  rcases hc with rfl | hd | rfl
  · exact absurd rfl hne
  · simp [isDigitDot, hd]
  · simp [isDigitDot]

theorem ne_T_of_dashClass {c : Char} (h : isDigitDotDash c = true) : ¬c = 'T' := by
  intro hc
  subst hc
  exact absurd h (by decide)

theorem takeWhile_append_stop {p : Char → Bool} {xs : List Char}
    (hx : ∀ a ∈ xs, p a = true) {y : Char} (hy : p y = false) (ys : List Char) :
    (xs ++ y :: ys).takeWhile p = xs := by
  induction xs with
  | nil => simp [List.takeWhile_cons, hy]
  | cons a xs ih =>
    have ha : p a = true := hx a (List.mem_cons_self a xs)
    simp [List.takeWhile_cons, ha]
    exact ih fun b hb => hx b (List.mem_cons_of_mem a hb)

theorem dropWhile_append_stop {p : Char → Bool} {xs : List Char}
    (hx : ∀ a ∈ xs, p a = true) {y : Char} (hy : p y = false) (ys : List Char) :
    (xs ++ y :: ys).dropWhile p = y :: ys := by
  induction xs with
  | nil => simp [List.dropWhile_cons, hy]
  | cons a xs ih =>
    have ha : p a = true := hx a (List.mem_cons_self a xs)
    simp [List.dropWhile_cons, ha]
    exact ih fun b hb => hx b (List.mem_cons_of_mem a hb)

theorem eatClass1_append {p : Char → Bool} {xs : List Char} (hne : xs ≠ [])
    (hx : ∀ a ∈ xs, p a = true) {y : Char} (hy : p y = false) (ys : List Char) :
    eatClass1 p (xs ++ y :: ys) = some (xs, y :: ys) := by
  rw [eatClass1, takeWhile_append_stop hx hy ys, dropWhile_append_stop hx hy ys]
  cases xs with
  | nil => exact absurd rfl hne
  | cons a xs => rfl

theorem eatClass1_head_fail {p : Char → Bool} {c : Char} (hc : p c = false)
    (cs : List Char) : eatClass1 p (c :: cs) = none := by
  have ht : (c :: cs).takeWhile p = [] := by
    rw [List.takeWhile_cons, hc]
    rfl
  rw [eatClass1, ht]

theorem eatWS_not_head {c : Char} (hc : isWS c = false) (cs : List Char) :
    eatWS (c :: cs) = c :: cs := by
  simp [eatWS, List.dropWhile_cons, hc]

theorem dashClass_of_digitDot {c : Char} (h : isDigitDot c = true) :
    isDigitDotDash c = true := by
  have hc : c.isDigit = true ∨ c = '.' := by simpa [isDigitDot] using h
  rcases hc with hd | rfl
  · simp [isDigitDotDash, hd]
  · simp [isDigitDotDash]

theorem mem_split_first {c : Char} {l : List Char} (h : c ∈ l) :
    ∃ l1 l2, l = l1 ++ c :: l2 ∧ c ∉ l1 := by
  induction l with
  | nil => exact absurd h (List.not_mem_nil c)
  | cons a l ih =>
    by_cases hac : a = c
    · subst hac
      exact ⟨[], l, rfl, List.not_mem_nil a⟩
    · have hcl : c ∈ l := by
        rcases List.mem_cons.mp h with hc | hc
        · exact absurd hc.symm hac
        · exact hc
      obtain ⟨l1, l2, rfl, hn⟩ := ih hcl
      refine ⟨a :: l1, l2, rfl, ?_⟩
      intro hmem
      rcases List.mem_cons.mp hmem with hc | hc
      · exact hac hc.symm
      · exact hn hc

/-- A `[\d.]+` capture attempted on a `[-\d.]`-token containing a dash either
fails outright (dash first) or captures a prefix and leaves the dash as the
next character. -/
theorem class_dash (xs rest : List Char)
    (hx : ∀ a ∈ xs, isDigitDotDash a = true) (hd : '-' ∈ xs) :
    eatClass1 isDigitDot (xs ++ rest) = none ∨
    ∃ g ys, eatClass1 isDigitDot (xs ++ rest) = some (g, '-' :: ys) := by
  obtain ⟨l1, l2, rfl, hn⟩ := mem_split_first hd
  cases l1 with
  | nil =>
    left
    simpa using eatClass1_head_fail (p := isDigitDot) (by decide) (l2 ++ rest)
  | cons c l1 =>
    right
    refine ⟨c :: l1, l2 ++ rest, ?_⟩
    have hshape : ((c :: l1) ++ '-' :: l2) ++ rest = (c :: l1) ++ '-' :: (l2 ++ rest) := by
      simp
    rw [hshape]
    refine eatClass1_append (List.cons_ne_nil c l1) ?_ (by decide) (l2 ++ rest)
    intro a ha
    refine digitDot_of_dashClass (hx a (List.mem_append_left _ ha)) ?_
    intro hadash
    exact hn (hadash ▸ ha)

theorem eatWS_token {xs : List Char} (hne : xs ≠ [])
    (hx : ∀ a ∈ xs, isDigitDotDash a = true) (rest : List Char) :
    eatWS (xs ++ rest) = xs ++ rest := by
  cases xs with
  | nil => exact absurd rfl hne
  | cons c t =>
    rw [List.cons_append]
    exact eatWS_not_head (not_ws_of_dashClass (hx c (List.mem_cons_self c t))) _

/-- `afterH` fails on a humidity token that contains a dash. -/
theorem afterH_dash (g1 xs rest : List Char)
    (hx : ∀ a ∈ xs, isDigitDotDash a = true) (hd : '-' ∈ xs) :
    afterH g1 (' ' :: (xs ++ rest)) = none := by
  have hws : eatWS (' ' :: (xs ++ rest)) = xs ++ rest := by
    have h1 : eatWS (' ' :: (xs ++ rest)) = eatWS (xs ++ rest) := rfl
    rw [h1, eatWS_token (List.ne_nil_of_mem hd) hx]
  rcases class_dash xs rest hx hd with hnone | ⟨g2, ys, hsome⟩
  · simp only [afterH]
    rw [hws, hnone]
  · simp only [afterH]
    rw [hws, hsome]
    rfl

/-- `afterT` fails on a temperature token that contains a dash. -/
theorem afterT_dash (xs rest : List Char)
    (hx : ∀ a ∈ xs, isDigitDotDash a = true) (hd : '-' ∈ xs) :
    afterT (' ' :: (xs ++ rest)) = none := by
  have hws : eatWS (' ' :: (xs ++ rest)) = xs ++ rest := by
    have h1 : eatWS (' ' :: (xs ++ rest)) = eatWS (xs ++ rest) := rfl
    rw [h1, eatWS_token (List.ne_nil_of_mem hd) hx]
  rcases class_dash xs rest hx hd with hnone | ⟨g1, ys, hsome⟩
  · simp only [afterT]
    rw [hws, hnone]
  · simp only [afterT]
    rw [hws, hsome]
    rfl

/-- `afterT` fails on an empty temperature token (the next character is the
literal `C`, outside `[\d.]`). -/
theorem afterT_empty (rest : List Char) :
    afterT (' ' :: ' ' :: 'C' :: rest) = none := rfl

/-- `afterT` on a well-formed `[\d.]+` temperature token followed by the
literal segment ` C | H:` reduces to `afterH` on the remainder. -/
theorem afterT_pass (c : Char) (t' rest : List Char)
    (hx : ∀ a ∈ c :: t', isDigitDot a = true) :
    afterT (' ' :: ((c :: t') ++
        (' ' :: 'C' :: ' ' :: '|' :: ' ' :: 'H' :: ':' :: rest))) =
      afterH (c :: t') rest := by
  have hx' : ∀ a ∈ c :: t', isDigitDotDash a = true :=
    fun a ha => dashClass_of_digitDot (hx a ha)
  have hws : eatWS (' ' :: ((c :: t') ++
      (' ' :: 'C' :: ' ' :: '|' :: ' ' :: 'H' :: ':' :: rest))) =
      (c :: t') ++ (' ' :: 'C' :: ' ' :: '|' :: ' ' :: 'H' :: ':' :: rest) := by
    have h1 : eatWS (' ' :: ((c :: t') ++
        (' ' :: 'C' :: ' ' :: '|' :: ' ' :: 'H' :: ':' :: rest))) =
        eatWS ((c :: t') ++ (' ' :: 'C' :: ' ' :: '|' :: ' ' :: 'H' :: ':' :: rest)) := rfl
    rw [h1, eatWS_token (List.cons_ne_nil c t') hx' _]
  have hcl : eatClass1 isDigitDot ((c :: t') ++
      (' ' :: 'C' :: ' ' :: '|' :: ' ' :: 'H' :: ':' :: rest)) =
      some (c :: t', ' ' :: 'C' :: ' ' :: '|' :: ' ' :: 'H' :: ':' :: rest) :=
    eatClass1_append (List.cons_ne_nil c t') hx (by decide) _
  simp only [afterT]
  rw [hws, hcl]
  rfl

theorem matchFrom_cons_ne {c : Char} (hc : ¬c = 'T') (cs : List Char) :
    matchFrom (c :: cs) = none := by
  simp [matchFrom, eatLit, hc]

theorem matchFrom_nil : matchFrom [] = none := rfl

theorem regexSearch_none_of (cs : List Char)
    (H : ∀ ds, ds <:+ cs → matchFrom ds = none) : regexSearch cs = none := by
  induction cs with
  | nil => rfl
  | cons c rest ih =>
    have h0 : matchFrom (c :: rest) = none := H _ (List.suffix_refl _)
    have hr : regexSearch rest = none :=
      ih fun ds hds => H ds (hds.trans (List.suffix_cons c rest))
    simp [regexSearch, h0, hr]

/-- The pattern cannot match at the start of a wire-format line whose
temperature or humidity token contains a dash. -/
theorem matchFrom_mkLine_dash (t h w s : String)
    (ht : ∀ c ∈ t.data, isDigitDotDash c = true)
    (hh : ∀ c ∈ h.data, isDigitDotDash c = true)
    (hneg : '-' ∈ t.data ∨ '-' ∈ h.data) :
    matchFrom (mkLine t h w s).data = none := by
  rw [mkLine_data]
  rw [show ∀ xs, matchFrom ('T' :: ':' :: xs) = afterT xs from fun xs => rfl]
  by_cases hdt : '-' ∈ t.data
  · exact afterT_dash t.data _ ht hdt
  · have hdh : '-' ∈ h.data := hneg.resolve_left hdt
    have ht' : ∀ c ∈ t.data, isDigitDot c = true := by
      intro c hc
      refine digitDot_of_dashClass (ht c hc) ?_
      intro hcd
      exact hdt (hcd ▸ hc)
    cases htd : t.data with
    | nil =>
      rw [List.nil_append]
      exact afterT_empty _
    | cons c t' =>
      rw [afterT_pass c t' _ (htd ▸ ht')]
      exact afterH_dash (c :: t') h.data _ hh hdh

/-- No character after position 0 of a wire-format line is `T`, so the
pattern cannot match at any later start position either. -/
theorem mkLine_tail_no_T (t h w s : String)
    (ht : ∀ c ∈ t.data, isDigitDotDash c = true)
    (hh : ∀ c ∈ h.data, isDigitDotDash c = true)
    (hw : ∀ c ∈ w.data, isDigitDotDash c = true)
    (hs : s = "ON" ∨ s = "OFF") :
    ∀ c ∈ (':' :: ' ' ::
        (t.data ++ (' ' :: 'C' :: ' ' :: '|' :: ' ' :: 'H' :: ':' ::
          (' ' :: (h.data ++ (' ' :: '%' :: ' ' :: '|' :: ' ' ::
            'P' :: 'e' :: 's' :: 'o' :: ':' ::
              (' ' :: (w.data ++ (' ' :: '|' :: ' ' ::
                'A' :: 'q' :: 'u' :: 'e' :: 'c' :: 'e' :: 'd' :: 'o' :: 'r' :: ':' ::
                  (' ' :: s.data)))))))))), ¬c = 'T' := by
  intro c hc hT
  subst hT
  have hsT : ('T' : Char) ∉ s.data := by
    rcases hs with rfl | rfl <;> decide
  have htT : ('T' : Char) ∉ t.data := fun hm => ne_T_of_dashClass (ht _ hm) rfl
  have hhT : ('T' : Char) ∉ h.data := fun hm => ne_T_of_dashClass (hh _ hm) rfl
  have hwT : ('T' : Char) ∉ w.data := fun hm => ne_T_of_dashClass (hw _ hm) rfl
  simp only [List.mem_cons, List.mem_append] at hc
  simp at hc
  rcases hc with h1 | h1 | h1 | h1
  · exact htT h1
  · exact hhT h1
  · exact hwT h1
  · exact hsT h1

/-- The regex finds no match anywhere in a wire-format line whose temperature
or humidity token contains a dash. -/
theorem regexSearch_mkLine_dash (t h w s : String)
    (ht : ∀ c ∈ t.data, isDigitDotDash c = true)
    (hh : ∀ c ∈ h.data, isDigitDotDash c = true)
    (hw : ∀ c ∈ w.data, isDigitDotDash c = true)
    (hs : s = "ON" ∨ s = "OFF")
    (hneg : '-' ∈ t.data ∨ '-' ∈ h.data) :
    regexSearch (mkLine t h w s).data = none := by
  have hmf : matchFrom (mkLine t h w s).data = none :=
    matchFrom_mkLine_dash t h w s ht hh hneg
  apply regexSearch_none_of
  intro ds hds
  rw [mkLine_data] at hds
  rcases List.suffix_cons_iff.mp hds with heq | hds1
  · rw [heq, ← mkLine_data t h w s]
    exact hmf
  · cases ds with
    | nil => exact matchFrom_nil
    | cons c ds' =>
      apply matchFrom_cons_ne
      exact mkLine_tail_no_T t h w s ht hh hw hs c
        (hds1.subset (List.mem_cons_self c ds'))

/-- C9: the pattern is asymmetric about signs.  For every wire-format line
whose temperature or humidity token carries a minus sign (tokens drawn from
the weight alphabet `[-\d.]`, heater token `ON` or `OFF`), the regex never
matches and `process_data` only logs the line, changing nothing else; whereas
the weight token may contain a minus sign: the line with weight `-150`
matches, `-150` is captured as group 3 and displayed on the weight card. -/
theorem pattern_sign_asymmetry (t h w s : String)
    (ht : ∀ c ∈ t.data, isDigitDotDash c = true)
    (hh : ∀ c ∈ h.data, isDigitDotDash c = true)
    (hw : ∀ c ∈ w.data, isDigitDotDash c = true)
    (hs : s = "ON" ∨ s = "OFF")
    (hneg : '-' ∈ t.data ∨ '-' ∈ h.data) :
    regexSearch (mkLine t h w s).data = none ∧
    (∀ st, processData (mkLine t h w s) st = logMessage (mkLine t h w s) st) ∧
    regexSearch (mkLine "85.0" "20.0" "-150" "ON").data =
      some ⟨"85.0", "20.0", "-150", "ON"⟩ ∧
    (processData (mkLine "85.0" "20.0" "-150" "ON") initState).weightLabel =
      "-150 g" := by
  have hnone : regexSearch (mkLine t h w s).data = none :=
    regexSearch_mkLine_dash t h w s ht hh hw hs hneg
  refine ⟨hnone, fun st => processData_of_none hnone, by decide, by decide⟩

theorem pattern_sign_asymmetry_witness :
    regexSearch (mkLine "-85.0" "20.0" "150" "ON").data = none :=
  (pattern_sign_asymmetry "-85.0" "20.0" "150" "ON"
    (by decide) (by decide) (by decide) (Or.inl rfl) (Or.inl (by decide))).1
